import Mathlib

/-!
Verification of the HeatSight news heat-scoring backend.

This file gives a shallow embedding, in Lean 4, of the parts of the
backend that the verified properties talk about:

* the tokenizer / Jaccard title-similarity helpers of
  `app/services/news_heat_score_service.py` (`_is_chinese`,
  `_tokenize_text`, `_calculate_title_similarity`);
* the heat-score calculator (`calculate_heat_score`) with its five
  sub-scores, and the source-weight learner (`update_source_weights`);
* the cache-key construction and retry loop of
  `app/services/heatlink_client.py` (`HeatLinkAPIClient.get`,
  `_make_request`);
* the in-process fallback cache of `app/db/redis.py` (`MemoryCache`);
* the heat-score store queries of `app/crud/news_heat_score.py`
  (`get_by_news_id`, `get_multi_by_news_ids`, `get_top_news_as_dict`).

Numbers that the Python code handles as floats are modelled as exact
rationals (`ℚ`) where the code only uses field operations, and as real
numbers (`ℝ`) where `math.exp` is involved.  Wall-clock instants are
modelled as rational numbers of hours.  External collaborators that are
not part of the repository (the jieba tokenizer, the ISO-8601 parser of
the Python standard library, the upstream HTTP feed) are passed in as
explicit function arguments, so every theorem quantifies over their
behaviour.

The file is organised as definitions first, then theorems.
-/

namespace HeatSight

/-! ## Definitions -/

/-! ### Association lists

Python dictionaries keep insertion order; we model them as association
lists where `alookup` finds the binding of a key, `alinsert` overwrites
in place or appends at the end (a `dict` assignment), and `alerase`
removes a binding (`del`). -/

def alookup {β : Type} : List (String × β) → String → Option β
  | [], _ => none
  | (k, v) :: rest, key => if key = k then some v else alookup rest key

def alinsert {β : Type} : List (String × β) → String → β → List (String × β)
  | [], key, v => [(key, v)]
  | (k, w) :: rest, key, v =>
      if key = k then (k, v) :: rest else (k, w) :: alinsert rest key v

def alerase {β : Type} : List (String × β) → String → List (String × β)
  | [], _ => []
  | (k, w) :: rest, key => if key = k then rest else (k, w) :: alerase rest key

/-- First-some choice on options (a binding already present wins, as in
the Python `dict` merge loops). -/
def oor {β : Type} : Option β → Option β → Option β
  | some v, _ => some v
  | none, b => b

/-! ### Tokenizer and title similarity

Embeds `_is_chinese`, `_tokenize_text` and `_calculate_title_similarity`
from `news_heat_score_service.py`.  The Chinese branch of the tokenizer
delegates to the external jieba library, passed in as `jiebaCut`; the
Latin branch is modelled on the NLTK-unavailable fallback that the
source embeds literally (`text.lower().split()` plus stop-word and
emptiness filtering). -/

/-- Stop words of the embedded English fallback set (`_load_stopwords`,
branch for `NLTK_AVAILABLE = False`). -/
def enStopwordsFallback : List String :=
  ["a", "an", "and", "are", "as", "at", "be", "by", "for",
   "from", "has", "he", "in", "is", "it", "its", "of", "on",
   "that", "the", "to", "was", "were", "will", "with"]

/-- Basic Chinese stop words written out in `_load_stopwords`. -/
def cnStopwordsBasic : List String :=
  ["的", "了", "和", "是", "就", "都", "而", "及", "与", "着",
   "或", "一个", "没有", "我们", "你们", "他们", "它们", "这个",
   "那个", "这些", "那些", "这样", "那样", "之", "的话", "说",
   "时候", "显示", "一些", "现在", "已经", "什么", "只是", "还是",
   "可以", "这", "那", "又", "也", "有", "到", "很", "来", "去",
   "把", "被", "让", "但", "但是", "然后", "所以", "因为", "由于",
   "因此", "如果", "虽然", "于是", "一直", "并", "并且",
   "不过", "不", "没", "一", "在", "中", "为", "以", "能", "要"]

/-- Number of CJK characters (the `[一-鿿]` range counted by
`_is_chinese`). -/
def cjkCount (s : String) : ℕ :=
  (s.toList.filter (fun c => decide (0x4e00 ≤ c.toNat) && decide (c.toNat ≤ 0x9fff))).length

/-- Embeds `_is_chinese`: true when more than 30 percent of the
characters are CJK; an empty text is not Chinese.  The ratio comparison
`chinese_chars / len(text) > 0.3` is stated integrally as
`10 * chinese_chars > 3 * len(text)`, which is the same predicate over
exact arithmetic. -/
def isChinese (s : String) : Bool :=
  if s.length = 0 then false
  else decide (3 * s.length < 10 * cjkCount s)

/-- Splits a character list at whitespace characters, keeping empty
pieces (helper for `pySplitWhitespace`). -/
def splitWsAux : List Char → List Char → List String
  | [], acc => [String.mk acc.reverse]
  | c :: cs, acc =>
      if c.isWhitespace then String.mk acc.reverse :: splitWsAux cs []
      else splitWsAux cs (c :: acc)

/-- Python `str.split()` with no argument: split on whitespace runs and
drop empty pieces. -/
def pySplitWhitespace (s : String) : List String :=
  (splitWsAux s.toList []).filter (fun w => w ≠ "")

/-- Splits a character list at a separator character, keeping empty
pieces, like Python `str.split(sep)` with an explicit separator. -/
def splitSepAux (sep : Char) : List Char → List Char → List String
  | [], acc => [String.mk acc.reverse]
  | c :: cs, acc =>
      if c = sep then String.mk acc.reverse :: splitSepAux sep cs []
      else splitSepAux sep cs (c :: acc)

/-- Python `str.split(sep)`: split at every separator, keeping empty
pieces. -/
def pySplitOn (sep : Char) (s : String) : List String :=
  splitSepAux sep s.toList []

/-- Python `str.lower()` on the character list. -/
def pyLower (s : String) : String := String.mk (s.toList.map Char.toLower)

/-- Python `str.strip()`: drop whitespace from both ends. -/
def pyStrip (s : String) : String :=
  String.mk (((s.toList.dropWhile Char.isWhitespace).reverse.dropWhile
    Char.isWhitespace).reverse)

/-- Embeds `_tokenize_text`.  `jiebaCut` stands for the external
`jieba.cut`; the Latin branch follows the embedded fallback tokenizer
(`text.lower().split()`), and both branches drop stop words and
whitespace-only tokens. -/
def tokenizeText (jiebaCut : String → List String) (s : String) : List String :=
  if isChinese s then
    (jiebaCut s).filter (fun w => !(cnStopwordsBasic.contains w) && pyStrip w != "")
  else
    (pySplitWhitespace (pyLower s)).filter
      (fun w => !(enStopwordsFallback.contains w) && pyStrip w != "")

/-- Embeds `_calculate_title_similarity`: Jaccard similarity of the two
token sets, 0 when the union is empty. -/
def calculateTitleSimilarity (tok : String → List String) (t1 t2 : String) : ℚ :=
  let words1 := (tok t1).toFinset
  let words2 := (tok t2).toFinset
  let inter := (words1 ∩ words2).card
  let uni := (words1 ∪ words2).card
  if uni = 0 then 0 else (inter : ℚ) / (uni : ℚ)

/-! ### Score calculator (`calculate_heat_score`)

The per-item inputs that the calculator reads.  `metrics` is present
only when the upstream item carries a `metrics` map; each counter is
present only when its key is.  `meta_category` stands for
`news_item["meta_data"]["category"]` when that nested key exists. -/

structure MetricsIn where
  view_count : Option ℚ := none
  like_count : Option ℚ := none
  comment_count : Option ℚ := none
  share_count : Option ℚ := none
  heat : Option ℚ := none

structure NewsItemIn where
  id : String
  source_id : String
  title : String
  url : String := ""
  published_at : String := ""
  content : String := ""
  metrics : Option MetricsIn := none
  category : Option String := none
  meta_category : Option String := none

/-- Algorithm constants of `news_heat_score_service.py`. -/
def BASELINE_FACTOR : ℚ := 10

def DECAY_FACTOR : ℝ := 24

def W_KEYWORD : ℚ := 0.3

def W_RECENCY : ℚ := 0.25

def W_PLATFORM : ℚ := 0.15

def W_CROSS_SOURCE : ℚ := 0.2

def W_SOURCE : ℚ := 0.1

/-- The raw metric chosen by `_normalize_platform_score`: the first
present of `view_count`, `like_count`, `comment_count`, `heat`;
0 when none is present. -/
def originalMetricScore (m : MetricsIn) : ℚ :=
  match m.view_count with
  | some v => v
  | none =>
    match m.like_count with
    | some v => v
    | none =>
      match m.comment_count with
      | some v => v
      | none =>
        match m.heat with
        | some v => v
        | none => 0

/-- The raw metric of an item as the calculator reads it: 0 when the
item carries no `metrics` map at all. -/
def originalMetricOfItem (item : NewsItemIn) : ℚ :=
  match item.metrics with
  | some m => originalMetricScore m
  | none => 0

/-- Per-platform baselines of `_normalize_platform_score`. -/
def platformBaselines (source_id : String) : ℚ :=
  if source_id = "weibo" then 10000
  else if source_id = "zhihu" then 5000
  else if source_id = "toutiao" then 8000
  else 1000

/-- Embeds `_normalize_platform_score`. -/
def normalizePlatformScore (metrics : MetricsIn) (source_id : String) : ℚ :=
  min (originalMetricScore metrics / platformBaselines source_id * 100) 100

/-- The distinct sources counted by `_calculate_cross_source_score`: the
set of `source_id`s of batch items whose title has similarity above 0.6
with the given title.  The item itself is a member of the batch, so its
own source is counted. -/
def calculateCrossSourceCount (tok : String → List String) (title : String)
    (allNewsItems : List NewsItemIn) : ℕ :=
  (((allNewsItems.filter
      (fun it => decide ((6 : ℚ) / 10 < calculateTitleSimilarity tok title it.title))).map
        (fun it => it.source_id)).dedup).length

/-- Embeds `_calculate_cross_source_score`: ten distinct sources are a
full score. -/
def calculateCrossSourceScore (tok : String → List String) (title : String)
    (allNewsItems : List NewsItemIn) : ℚ :=
  min ((calculateCrossSourceCount tok title allNewsItems : ℚ) / 10 * 100) 100

/-- Embeds `_get_source_weight` (the fixed fallback table). -/
def getSourceWeight (source_id : String) : ℚ :=
  if source_id = "weibo" then 90
  else if source_id = "zhihu" then 85
  else if source_id = "toutiao" then 80
  else if source_id = "sina" then 75
  else if source_id = "163" then 70
  else if source_id = "qq" then 70
  else if source_id = "sohu" then 65
  else if source_id = "ifeng" then 65
  else if source_id = "baidu" then 90
  else 50

/-- The keyword-match sub-score of `calculate_heat_score`:
`min(similar_count / BASELINE_FACTOR * 100, 100)` where `similar_count`
sums the item counts of the upstream keyword searches. -/
def keywordScoreOf (similarCount : ℕ) : ℚ :=
  min ((similarCount : ℚ) / BASELINE_FACTOR * 100) 100

/-- The recency sub-score: `100 * exp(-hours_passed / DECAY_FACTOR)`. -/
noncomputable def recencyScore (hoursPassed : ℚ) : ℝ :=
  100 * Real.exp (-(hoursPassed : ℝ) / DECAY_FACTOR)

/-- The source-to-category inference table of `calculate_heat_score`. -/
def sourceCategoriesTable : List (String × String) :=
  [("weibo", "social"), ("zhihu", "knowledge"), ("toutiao", "news"),
   ("baidu", "search"), ("bilibili", "video"), ("douyin", "video"),
   ("36kr", "technology"), ("wallstreetcn", "finance"), ("ithome", "technology"),
   ("thepaper", "news"), ("zaobao", "news"), ("sina", "news"),
   ("qq", "news"), ("163", "news"), ("sohu", "news"), ("ifeng", "news"),
   ("bbc_world", "world"), ("bloomberg", "finance"), ("hackernews", "technology"),
   ("github", "technology"), ("v2ex", "technology"), ("kuaishou", "video")]

/-- Python truthiness for optional strings: `None` and `""` are falsy. -/
def pickNonEmpty : Option String → Option String
  | some s => if s = "" then none else some s
  | none => none

/-- Category derivation of `calculate_heat_score`: the item's own
category, else the nested `meta_data.category`, else the source map,
else `"others"`. -/
def deriveCategory (item : NewsItemIn) : String :=
  match pickNonEmpty item.category with
  | some c => c
  | none =>
    match pickNonEmpty item.meta_category with
    | some c => c
    | none => (alookup sourceCategoriesTable item.source_id).getD "others"

/-- The row assembled by `calculate_heat_score` and persisted through
`crud.create` (which strips timezone info and stamps `calculated_at`
with the current instant); `cross_source_score`, `source_weight` and
`category` are the values placed into `meta_data`. -/
structure HeatScoreCreate where
  news_id : String
  source_id : String
  title : String
  url : String
  heat_score : ℝ
  relevance_score : ℚ
  recency_score : ℝ
  popularity_score : ℚ
  cross_source_score : ℚ
  source_weight : ℚ
  category : String
  published_at : ℚ
  calculated_at : ℚ

/-- Embeds `calculate_heat_score`.  External collaborators are passed
in: `tok` is the tokenizer (`_tokenize_text`, whose Chinese branch uses
jieba), `similarCount` the summed item count of the upstream keyword
searches (the relevance input), `parsePublishedAt` the ISO-8601 parse
with the code's `Z`/offset fix-ups (`none` when parsing raises), and
`now` the current UTC instant in hours (`datetime.now(timezone.utc)`);
an unparseable `published_at` falls back to `now`. -/
noncomputable def calculateHeatScore (tok : String → List String) (similarCount : ℕ)
    (parsePublishedAt : String → Option ℚ) (now : ℚ)
    (newsItem : NewsItemIn) (allNewsItems : List NewsItemIn) : HeatScoreCreate :=
  let keyword_score := keywordScoreOf similarCount
  let published_time := (parsePublishedAt newsItem.published_at).getD now
  let hours_passed := now - published_time
  let recency_score := recencyScore hours_passed
  let platform_score : ℚ :=
    match newsItem.metrics with
    | some m => normalizePlatformScore m newsItem.source_id
    | none => 0
  let cross_source_score := calculateCrossSourceScore tok newsItem.title allNewsItems
  let source_weight := getSourceWeight newsItem.source_id
  let final_score :=
    (W_KEYWORD : ℝ) * (keyword_score : ℝ) + (W_RECENCY : ℝ) * recency_score +
      (W_PLATFORM : ℝ) * (platform_score : ℝ) +
      (W_CROSS_SOURCE : ℝ) * (cross_source_score : ℝ) +
      (W_SOURCE : ℝ) * (source_weight : ℝ)
  { news_id := newsItem.id
    source_id := newsItem.source_id
    title := newsItem.title
    url := newsItem.url
    heat_score := min (max final_score 0) 100
    relevance_score := keyword_score
    recency_score := recency_score
    popularity_score := platform_score
    cross_source_score := cross_source_score
    source_weight := source_weight
    category := deriveCategory newsItem
    published_at := published_time
    calculated_at := now }

/-! ### Source-weight learner (`update_source_weights`)

The per-source computation on the items fetched for one source.  The
ISO-8601 timestamp parse (with the same `Z`/offset fix-ups as the
calculator) is again an oracle `parse`; a parse failure anywhere in the
frequency computation is the code's caught exception, leaving the
default frequency 50. -/

structure SourceItem where
  published_at : String := ""
  metrics : Option MetricsIn := none

/-- Reads `item.get("metrics", {})`: a missing metrics map reads as empty. -/
def itemMetrics (it : SourceItem) : MetricsIn := it.metrics.getD {}

/-- Raw engagement of one item:
`view·1 + like·3 + comment·5 + share·10`, each counter defaulting
to 0. -/
def engagementOf (m : MetricsIn) : ℚ :=
  (m.view_count.getD 0) * 1 + (m.like_count.getD 0) * 3 +
    (m.comment_count.getD 0) * 5 + (m.share_count.getD 0) * 10

/-- Per-source engagement baselines of `update_source_weights`. -/
def engagementBaseline (source_id : String) : ℚ :=
  if source_id = "weibo" then 10000
  else if source_id = "zhihu" then 5000
  else if source_id = "bilibili" then 3000
  else if source_id = "toutiao" then 8000
  else if source_id = "36kr" then 2000
  else 1000

/-- Computes `min((engagement / baseline) * 100, 100)` for one item. -/
def normalizedEngagement (source_id : String) (m : MetricsIn) : ℚ :=
  min ((engagementOf m / engagementBaseline source_id) * 100) 100

/-- Parses the publication timestamps of a list of items; `none` when
any parse raises (the code's caught exception). -/
def parseTimestamps (parse : String → Option ℚ) : List SourceItem → Option (List ℚ)
  | [] => some []
  | it :: rest =>
      match parse it.published_at with
      | some t => (parseTimestamps parse rest).map (fun ts => t :: ts)
      | none => none

/-- Consecutive intervals `timestamps[i] - timestamps[i+1]` in hours. -/
def intervalsOf : List ℚ → List ℚ
  | t1 :: t2 :: rest => (t1 - t2) :: intervalsOf (t2 :: rest)
  | _ => []

/-- The discrete frequency scale of `update_source_weights` (the code's
literal thresholds `0.0833`, `0.1667`, `0.5`, `1`, `2`, `4` hours). -/
def updateFrequencyScore (avgInterval : ℚ) : ℚ :=
  if avgInterval ≤ 0.0833 then 100
  else if avgInterval ≤ 0.1667 then 90
  else if avgInterval ≤ 0.5 then 80
  else if avgInterval ≤ 1 then 70
  else if avgInterval ≤ 2 then 60
  else if avgInterval ≤ 4 then 50
  else 40

/-- The update-frequency computation: defaults to 50 with fewer than 5
items or when the timestamp parsing raises; otherwise scores the average
interval of the first 5 items. -/
def computeUpdateFrequency (parse : String → Option ℚ) (news_items : List SourceItem) : ℚ :=
  if 5 ≤ news_items.length then
    match parseTimestamps parse (news_items.take 5) with
    | some ts =>
        let intervals := intervalsOf ts
        updateFrequencyScore (intervals.sum / (intervals.length : ℚ))
    | none => 50
  else 50

/-- Base weights by source id in `update_source_weights`. -/
def baseWeightTable (source_id : String) : ℚ :=
  if source_id = "weibo" then 90
  else if source_id = "zhihu" then 85
  else if source_id = "toutiao" then 85
  else if source_id = "baidu" then 85
  else if source_id = "bilibili" then 80
  else if source_id = "douyin" then 80
  else if source_id = "kuaishou" then 75
  else if source_id = "36kr" then 75
  else if source_id = "wallstreetcn" then 75
  else if source_id = "thepaper" then 70
  else if source_id = "ithome" then 70
  else if source_id = "zaobao" then 70
  else if source_id = "bbc_world" then 85
  else if source_id = "bloomberg" then 85
  else if source_id = "v2ex" then 65
  else if source_id = "hackernews" then 70
  else if source_id = "github" then 60
  else 50

/-- The record stored per source in the cached map. -/
structure SourceStat where
  weight : ℚ
  avg_engagement : ℚ
  update_frequency : ℚ
  item_count : ℕ

/-- Embeds the per-source body of `update_source_weights` for a source
with fetched items: average normalized engagement, update frequency,
then `source_weight = base·0.5 + min(avg_engagement/1000, 100)·0.3 +
frequency·0.2` clamped to [10, 100]. -/
def computeSourceStat (parse : String → Option ℚ) (source_id : String)
    (news_items : List SourceItem) : SourceStat :=
  let total_items := news_items.length
  let sumEngagement :=
    (news_items.map (fun it => normalizedEngagement source_id (itemMetrics it))).sum
  let avg_engagement :=
    if 0 < total_items then sumEngagement / (total_items : ℚ) else sumEngagement
  let update_frequency := computeUpdateFrequency parse news_items
  let base_weight := baseWeightTable source_id
  let engagement_score := min (avg_engagement / 1000) 100
  let source_weight :=
    base_weight * 0.5 + engagement_score * 0.3 + update_frequency * 0.2
  { weight := max (min source_weight 100) 10
    avg_engagement := avg_engagement
    update_frequency := update_frequency
    item_count := total_items }

/-- Reference for claim C3, written from the claim's words: final
weight `0.5·base + 0.3·engagement + 0.2·update_frequency` clamped to
[10, 100], where `engagement` is the average normalized engagement
itself. -/
def sourceWeightSpec (base engagement update_frequency : ℚ) : ℚ :=
  max (min (0.5 * base + 0.3 * engagement + 0.2 * update_frequency) 100) 10

/-- A source item with a very high view count (claim C3). -/
def itemC3 : SourceItem :=
  { published_at := "2024-01-01T00:00:00Z"
    metrics := some { view_count := some 100000 } }

/-- The scenario-1 item of the spec (claim C2). -/
def itemC2 : NewsItemIn :=
  { id := "n1"
    source_id := "weibo"
    title := "测试热点：一则示例新闻"
    url := "u"
    published_at := "2024-01-01T00:00:00Z"
    metrics := some { view_count := some 10000 } }

/-- An item whose `published_at` parses to 24 hours in the future of the
calculation instant (claim C1). -/
def itemC1 : NewsItemIn :=
  { id := "nf"
    source_id := "weibo"
    title := "future"
    url := "u"
    published_at := "2099-01-01T00:00:00Z" }

/-! ### Stable sorting

SQL `ORDER BY ... DESC` is modelled by a stable insertion sort over the
row list held by the store, so that ties keep their store order in every
query consistently.  The key fact proved below is that filtering
commutes with stable sorting, which lets a query over a superset of ids
be compared with a query over a single id. -/

def insertSorted {α : Type} (le : α → α → Bool) (x : α) : List α → List α
  | [] => [x]
  | y :: ys => if le x y then x :: y :: ys else y :: insertSorted le x ys

def insertionSort {α : Type} (le : α → α → Bool) : List α → List α
  | [] => []
  | x :: xs => insertSorted le x (insertionSort le xs)

/-! ### Heat-score store (`app/crud/news_heat_score.py`)

A persisted `NewsHeatScore` row; scores are exact rationals and
timestamps are naive-UTC instants measured in hours. -/

structure HeatMetaData where
  cross_source_score : ℚ
  source_weight : ℚ
  keywords : List String
  category : Option String
deriving DecidableEq

structure HeatScoreRow where
  id : String
  news_id : String
  source_id : String
  title : String
  url : String
  heat_score : ℚ
  relevance_score : ℚ
  recency_score : ℚ
  popularity_score : ℚ
  meta_data : Option HeatMetaData
  published_at : ℚ
  calculated_at : ℚ
  updated_at : ℚ
deriving DecidableEq

/-- Comparison used by `ORDER BY calculated_at DESC`. -/
def calcAtDescLe (a b : HeatScoreRow) : Bool :=
  decide (b.calculated_at ≤ a.calculated_at)

/-- Embeds `get_by_news_id`: filter by `news_id`, order by
`calculated_at DESC`, take the first row. -/
def getByNewsId (db : List HeatScoreRow) (news_id : String) : Option HeatScoreRow :=
  (insertionSort calcAtDescLe (db.filter (fun r => r.news_id == news_id))).head?

/-- One `select ... where news_id in batch order by calculated_at desc`
of `get_multi_by_news_ids`. -/
def queryByNewsIds (db : List HeatScoreRow) (ids : List String) : List HeatScoreRow :=
  insertionSort calcAtDescLe (db.filter (fun r => ids.contains r.news_id))

/-- The result-merging loop of `get_multi_by_news_ids`: keep the first
row seen for each `news_id` not already collected. -/
def collectRows (acc : List (String × HeatScoreRow)) (rows : List HeatScoreRow) :
    List (String × HeatScoreRow) :=
  rows.foldl
    (fun a r => if (alookup a r.news_id).isSome then a else a ++ [(r.news_id, r)]) acc

/-- Splits a list into consecutive chunks of `n` elements
(`news_ids[i:i+BATCH_SIZE]` for `i` in steps of `BATCH_SIZE`). -/
def chunkList (n : ℕ) : List String → List (List String)
  | [] => []
  | x :: xs => (x :: xs.take (n - 1)) :: chunkList n (xs.drop (n - 1))
termination_by l => l.length
decreasing_by simp only [List.length_drop, List.length_cons]; omega

/-- Embeds `get_multi_by_news_ids` with `BATCH_SIZE = 100`: when more
than 100 ids are requested they are processed in batches of 100,
otherwise in a single query; each batch's rows are merged keeping the
first (latest) row per id. -/
def getMultiByNewsIds (db : List HeatScoreRow) (news_ids : List String) :
    List (String × HeatScoreRow) :=
  if 100 < news_ids.length then
    (chunkList 100 news_ids).foldl
      (fun acc batch => collectRows acc (queryByNewsIds db batch)) []
  else
    collectRows [] (queryByNewsIds db news_ids)

/-- Comparison used by `ORDER BY heat_score DESC`. -/
def heatDescLe (a b : HeatScoreRow) : Bool :=
  decide (b.heat_score ≤ a.heat_score)

/-- The comma-separated category parse of `get_top_news_as_dict`:
`[cat.strip() for cat in category.split(',') if cat.strip()]`. -/
def parseCategories (category : String) : List String :=
  ((pySplitOn ',' category).map pyStrip).filter (fun c => c != "")

/-- One category condition of `get_top_news_as_dict`: `meta_data` is not
null and `meta_data->'category'` (as text) equals one of the given
categories; the single-category and the multi-category `or_` branch of
the code are both instances of this form. -/
def metaCategoryMatches (cats : List String) (r : HeatScoreRow) : Bool :=
  match r.meta_data with
  | some m => cats.any (fun c => m.category == some c)
  | none => false

/-- Age filter of `get_top_news_as_dict`: applied only when
`max_age_hours` is given, keeping rows with
`published_at >= now - max_age_hours`. -/
def topFilterAge (db : List HeatScoreRow) (now : ℚ) (max_age_hours : Option ℚ) :
    List HeatScoreRow :=
  match max_age_hours with
  | some h => db.filter (fun r => decide (now - h ≤ r.published_at))
  | none => db

/-- Score filter of `get_top_news_as_dict`: applied only when
`min_score` is given. -/
def topFilterScore (rows : List HeatScoreRow) (min_score : Option ℚ) :
    List HeatScoreRow :=
  match min_score with
  | some m => rows.filter (fun r => decide (m ≤ r.heat_score))
  | none => rows

/-- Category filter of `get_top_news_as_dict`: when a category string is
given it is split on commas; no condition is added when every piece is
blank, otherwise rows must match one of the categories. -/
def topFilterCategory (rows : List HeatScoreRow) (category : Option String) :
    List HeatScoreRow :=
  match category with
  | some c =>
      if (parseCategories c).isEmpty then rows
      else rows.filter (metaCategoryMatches (parseCategories c))
  | none => rows

/-- Embeds `get_top_news_as_dict`: conjunctive filters, then
`ORDER BY heat_score DESC`; `offset` is applied only when `skip` is
non-zero and `limit` only when non-zero, exactly as the code's
`if skip:` and `if limit:` guards do.  The row projection to a dict
keeps every field, so the result is modelled as the rows themselves. -/
def getTopNewsAsDict (db : List HeatScoreRow) (now : ℚ) (limit skip : ℕ)
    (min_score max_age_hours : Option ℚ) (category : Option String) :
    List HeatScoreRow :=
  let sorted := insertionSort heatDescLe
    (topFilterCategory (topFilterScore (topFilterAge db now max_age_hours) min_score)
      category)
  let afterSkip := if skip ≠ 0 then sorted.drop skip else sorted
  if limit ≠ 0 then afterSkip.take limit else afterSkip

/-- Reference for claim C6, written from the claim's words: a single
conjunctive row predicate (age bound, score bound, `meta_data.category`
equal to one of the listed categories), sort descending by heat, then
drop `skip` and take `limit` unconditionally. -/
def getTopNewsSpec (db : List HeatScoreRow) (now : ℚ) (limit skip : ℕ)
    (min_score max_age_hours : ℚ) (categories : Option (List String)) :
    List HeatScoreRow :=
  ((insertionSort heatDescLe (db.filter (fun r =>
      decide (now - max_age_hours ≤ r.published_at) &&
      decide (min_score ≤ r.heat_score) &&
      match categories with
      | some cats => cats.any (fun c => (r.meta_data.bind HeatMetaData.category) == some c)
      | none => true))).drop skip).take limit

/-! ### Upstream client (`heatlink_client.py`)

The cache-key construction and the cached-GET flow of
`HeatLinkAPIClient.get`, and the retry behaviour of its tenacity
decorator over `_make_request`. -/

/-- Embeds `endpoint.replace("/", ":")`, the default cache-key prefix. -/
def replaceSlashColon (s : String) : String :=
  String.mk (s.toList.map (fun c => if c = '/' then ':' else c))

/-- The `":".join(f"k=v" ...)` parameter string; parameters keep the
insertion order of the Python dict. -/
def paramString (params : List (String × String)) : String :=
  String.intercalate ":" (params.map (fun kv => kv.1 ++ "=" ++ kv.2))

/-- Python `str.rstrip(":")`. -/
def rstripColon (s : String) : String :=
  String.mk ((s.toList.reverse.dropWhile (fun c => c = ':')).reverse)

/-- The cache key of `HeatLinkAPIClient.get`:
`f"heatlink:{cache_key_prefix}:{param_str}".rstrip(":")`. -/
def buildCacheKey (pfx : String) (params : List (String × String)) : String :=
  rstripColon ("heatlink:" ++ pfx ++ ":" ++ paramString params)

/-- Result of one cached GET: the returned payload, the cache contents
afterwards, and whether the call was served from the cache. -/
structure CachedGetResult (α : Type) where
  value : α
  cache : List (String × α)
  hit : Bool

/-- The cached-GET flow of `HeatLinkAPIClient.get` around a successful
request: on `use_cache` and not forcing, a truthy cached value is
returned as a hit; otherwise the fetched payload is returned and, when
caching is on and the payload truthy, stored under the key.  `truthy`
models Python truthiness of the decoded JSON payload. -/
def cachedGet {α : Type} (truthy : α → Bool) (cache : List (String × α))
    (key : String) (fetch : α) (use_cache force_refresh : Bool) :
    CachedGetResult α :=
  let cachedHit : Option α :=
    if use_cache && !force_refresh then
      match alookup cache key with
      | some v => if truthy v then some v else none
      | none => none
    else none
  match cachedHit with
  | some v => { value := v, cache := cache, hit := true }
  | none =>
      if use_cache && truthy fetch then
        { value := fetch, cache := alinsert cache key fetch, hit := false }
      else { value := fetch, cache := cache, hit := false }

/-- One upstream interaction as `_make_request` observes it. -/
inductive UpstreamOutcome (α : Type) where
  | ok (v : α)
  | transportError
  | httpStatus (code : ℕ)
  | decodeError

/-- The `HTTPException` raised by `_make_request`. -/
structure HTTPErr where
  status_code : ℕ
deriving DecidableEq

/-- Embeds `_make_request`: a transport failure (`httpx.RequestError`)
becomes status 503, an upstream 4xx/5xx propagates its status code, and
a JSON decode failure falls into the generic handler with status 500. -/
def makeRequest {α : Type} : UpstreamOutcome α → Except HTTPErr α
  | .ok v => .ok v
  | .transportError => .error { status_code := 503 }
  | .httpStatus c => .error { status_code := c }
  | .decodeError => .error { status_code := 500 }

/-- The tenacity decorator on `HeatLinkAPIClient.get`:
`retry_if_exception_type(HTTPException)` with `stop_after_attempt(3)` —
every `HTTPException` (hence every failed attempt) is retried until
three attempts have been made, then the last error is re-raised.
`oracle i` is what the upstream does on attempt `i`; the second
component is the number of attempts made. -/
def getWithRetry {α : Type} (oracle : ℕ → UpstreamOutcome α) :
    Except HTTPErr α × ℕ :=
  match makeRequest (oracle 0) with
  | .ok v => (.ok v, 1)
  | .error _ =>
    match makeRequest (oracle 1) with
    | .ok v => (.ok v, 2)
    | .error _ => (makeRequest (oracle 2), 3)

/-! ### In-process fallback cache (`app/db/redis.py`, `MemoryCache`)

State: the value dict and the expiry dict; instants are rationals.
`get` purges and misses an expired key; `set` stores the value and,
for a truthy `ex`, the expiry instant; `exists` only consults the value
dict. -/

structure MemoryCache (α : Type) where
  cache : List (String × α)
  expires : List (String × ℚ)

/-- Embeds `MemoryCache.set` (and `setex`, which delegates to it): the
`if ex:` guard skips the expiry entry for a falsy (zero or absent)
`ex`. -/
def memorySet {α : Type} (st : MemoryCache α) (now : ℚ) (key : String)
    (value : α) (ex : Option ℚ) : MemoryCache α :=
  { cache := alinsert st.cache key value
    expires :=
      match ex with
      | some e => if e = 0 then st.expires else alinsert st.expires key (now + e)
      | none => st.expires }

/-- Embeds `MemoryCache.get`: a key whose stored expiry lies strictly
in the past is deleted from both dicts and reads as absent; otherwise
the value dict is consulted. -/
def memoryGet {α : Type} (st : MemoryCache α) (now : ℚ) (key : String) :
    Option α × MemoryCache α :=
  match alookup st.expires key with
  | some e =>
      if e < now then
        (none, { cache := alerase st.cache key, expires := alerase st.expires key })
      else (alookup st.cache key, st)
  | none => (alookup st.cache key, st)

/-- Embeds `MemoryCache.exists`: membership in the value dict only; the
expiry dict is not consulted. -/
def memoryExists {α : Type} (st : MemoryCache α) (key : String) : Bool :=
  (alookup st.cache key).isSome

/-! ### Sample rows used by concrete witnesses -/

def sampleRow1 : HeatScoreRow :=
  { id := "a", news_id := "n1", source_id := "weibo", title := "t", url := "u",
    heat_score := 90, relevance_score := 0, recency_score := 100,
    popularity_score := 0, meta_data := none, published_at := 0,
    calculated_at := 1, updated_at := 0 }

def sampleRow2 : HeatScoreRow := { sampleRow1 with id := "b", calculated_at := 2 }

def sampleRow3 : HeatScoreRow :=
  { sampleRow1 with id := "c", news_id := "n2", calculated_at := 0 }

def sampleRow4 : HeatScoreRow :=
  { sampleRow1 with
    id := "d"
    news_id := "n4"
    heat_score := 40
    meta_data := some
      { cross_source_score := 0
        source_weight := 50
        keywords := []
        category := some "social" } }

/-! ## Theorems -/

/-! ### Association-list lemmas -/

theorem alookup_alinsert {β : Type} (l : List (String × β)) (k : String) (v : β) :
    alookup (alinsert l k v) k = some v := by
  induction l with
  | nil => simp [alinsert, alookup]
  | cons hd tl ih =>
      obtain ⟨k', w⟩ := hd
      by_cases h : k = k' <;> simp [alinsert, alookup, h, ih]

theorem alookup_eq_none_of_not_mem {β : Type} (l : List (String × β)) (k : String)
    (h : k ∉ l.map Prod.fst) : alookup l k = none := by
  induction l with
  | nil => simp [alookup]
  | cons hd tl ih =>
      obtain ⟨k', w⟩ := hd
      simp only [List.map_cons, List.mem_cons, not_or] at h
      simp [alookup, h.1, ih h.2]

theorem alookup_alerase_self {β : Type} (l : List (String × β)) (k : String)
    (hnd : (l.map Prod.fst).Nodup) : alookup (alerase l k) k = none := by
  induction l with
  | nil => simp [alerase, alookup]
  | cons hd tl ih =>
      obtain ⟨k', w⟩ := hd
      simp only [List.map_cons, List.nodup_cons] at hnd
      by_cases h : k = k'
      · subst h
        simp only [alerase, if_pos rfl]
        exact alookup_eq_none_of_not_mem tl k hnd.1
      · simp [alerase, alookup, h, ih hnd.2]

theorem oor_some {β : Type} (v : β) (b : Option β) : oor (some v) b = some v := rfl

theorem oor_none {β : Type} (b : Option β) : oor none b = b := rfl

theorem alookup_append_single {β : Type} (l : List (String × β)) (k k' : String) (v : β) :
    alookup (l ++ [(k', v)]) k =
      oor (alookup l k) (if k = k' then some v else none) := by
  induction l with
  | nil => by_cases h : k = k' <;> simp [alookup, oor, h]
  | cons hd tl ih =>
      obtain ⟨k0, w⟩ := hd
      by_cases h0 : k = k0 <;> simp [alookup, h0, ih, oor]

theorem mem_keys_alinsert {β : Type} (l : List (String × β)) (k : String) (v : β)
    (x : String) (hx : x ∈ (alinsert l k v).map Prod.fst) :
    x = k ∨ x ∈ l.map Prod.fst := by
  induction l with
  | nil => simpa [alinsert] using hx
  | cons hd tl ih =>
      obtain ⟨k', w⟩ := hd
      by_cases h0 : k = k'
      · subst h0
        have heq : alinsert ((k, w) :: tl) k v = (k, v) :: tl := by simp [alinsert]
        rw [heq, List.map_cons, List.mem_cons] at hx
        rcases hx with hx | hx
        · exact Or.inl hx
        · exact Or.inr (by simp [hx])
      · have heq : alinsert ((k', w) :: tl) k v = (k', w) :: alinsert tl k v := by
          simp [alinsert, h0]
        rw [heq, List.map_cons, List.mem_cons] at hx
        rcases hx with hx | hx
        · exact Or.inr (by simp [hx])
        · rcases ih hx with h1 | h1
          · exact Or.inl h1
          · exact Or.inr (by simp [h1])

theorem alinsert_nodup_keys {β : Type} (l : List (String × β)) (k : String) (v : β)
    (hnd : (l.map Prod.fst).Nodup) : ((alinsert l k v).map Prod.fst).Nodup := by
  induction l with
  | nil => simp [alinsert]
  | cons hd tl ih =>
      obtain ⟨k', w⟩ := hd
      simp only [List.map_cons, List.nodup_cons] at hnd
      by_cases h : k = k'
      · subst h
        have heq : alinsert ((k, w) :: tl) k v = (k, v) :: tl := by simp [alinsert]
        rw [heq, List.map_cons, List.nodup_cons]
        exact ⟨hnd.1, hnd.2⟩
      · have heq : alinsert ((k', w) :: tl) k v = (k', w) :: alinsert tl k v := by
          simp [alinsert, h]
        rw [heq, List.map_cons, List.nodup_cons]
        refine ⟨?_, ih hnd.2⟩
        intro hmem
        rcases mem_keys_alinsert tl k v k' hmem with h1 | h1
        · exact h h1.symm
        · exact hnd.1 h1

/-! ### Upstream-client lemmas and claims C4, C8 -/

/-- C4 (counterexample).  The cache key joins the `k=v` pairs in the
dict's insertion order — there is no sorting — so the same parameters
supplied in different orders produce different keys, and the second
call is a cache miss rather than the claimed hit. -/
theorem C4_cache_key_order_counterexample :
    buildCacheKey "p" [("a", "1"), ("b", "2")] = "heatlink:p:a=1:b=2" ∧
      buildCacheKey "p" [("b", "2"), ("a", "1")] = "heatlink:p:b=2:a=1" ∧
      buildCacheKey "p" [("a", "1"), ("b", "2")] ≠
        buildCacheKey "p" [("b", "2"), ("a", "1")] ∧
      (cachedGet (fun n => n != 0)
        (cachedGet (fun n => n != 0) ([] : List (String × ℕ))
          (buildCacheKey "p" [("a", "1"), ("b", "2")]) 7 true false).cache
        (buildCacheKey "p" [("b", "2"), ("a", "1")]) 7 true false).hit = false := by
  refine ⟨by decide, by decide, by decide, by decide⟩

/-- C4 (amended).  The cache key is
`"heatlink:" + prefix + ":" + k=v pairs joined in insertion order`
(trailing colons stripped); two cached GET calls with the same endpoint,
prefix and the same parameters in the same order share the key, so
after a first call that fetches a truthy payload and stores it, a
second call with that key is a cache hit returning the stored payload —
parameters in a different order give no such guarantee. -/
theorem C4_cache_key_same_order_hit {α : Type} (truthy : α → Bool) (pfx : String)
    (params : List (String × String)) (cache : List (String × α)) (fetch fetch2 : α)
    (hfresh : alookup cache (buildCacheKey pfx params) = none)
    (hfetch : truthy fetch = true) :
    (cachedGet truthy cache (buildCacheKey pfx params) fetch true false).hit = false ∧
      (cachedGet truthy cache (buildCacheKey pfx params) fetch true false).value = fetch ∧
      (cachedGet truthy
          (cachedGet truthy cache (buildCacheKey pfx params) fetch true false).cache
          (buildCacheKey pfx params) fetch2 true false).hit = true ∧
      (cachedGet truthy
          (cachedGet truthy cache (buildCacheKey pfx params) fetch true false).cache
          (buildCacheKey pfx params) fetch2 true false).value = fetch := by
  have hfirst : cachedGet truthy cache (buildCacheKey pfx params) fetch true false =
      { value := fetch, cache := alinsert cache (buildCacheKey pfx params) fetch,
        hit := false } := by
    simp [cachedGet, hfresh, hfetch]
  refine ⟨by rw [hfirst], by rw [hfirst], ?_, ?_⟩ <;>
    rw [hfirst] <;>
    simp [cachedGet, alookup_alinsert, hfetch]

/-- C4 witness: the hit-after-store behaviour at a concrete prefix,
parameter list and payload. -/
theorem C4_cache_key_same_order_hit_witness :
    (cachedGet (fun n => n != 0)
        (cachedGet (fun n => n != 0) ([] : List (String × ℕ))
          (buildCacheKey "hot_news" [("hot_limit", "10")]) 7 true false).cache
        (buildCacheKey "hot_news" [("hot_limit", "10")]) 9 true false).hit = true ∧
      (cachedGet (fun n => n != 0)
        (cachedGet (fun n => n != 0) ([] : List (String × ℕ))
          (buildCacheKey "hot_news" [("hot_limit", "10")]) 7 true false).cache
        (buildCacheKey "hot_news" [("hot_limit", "10")]) 9 true false).value = 7 := by
  have h := C4_cache_key_same_order_hit (fun n => n != 0) "hot_news"
    [("hot_limit", "10")] ([] : List (String × ℕ)) 7 9 (by decide) (by decide)
  exact ⟨h.2.2.1, h.2.2.2⟩

/-- C8 (counterexample).  The tenacity decorator retries on every
`HTTPException` — which `_make_request` raises for 4xx responses too —
so a constant 404 upstream is attempted 3 times, not reported without
retrying; the status code is still carried in the final error. -/
theorem C8_retries_4xx_counterexample :
    getWithRetry (fun _ => UpstreamOutcome.httpStatus (α := ℕ) 404) =
        (.error { status_code := 404 }, 3) ∧
      (getWithRetry (fun _ => UpstreamOutcome.httpStatus (α := ℕ) 404)).2 ≠ 1 := by
  refine ⟨rfl, by decide⟩

/-- C8 (amended).  Every call makes at most 3 attempts; a first-attempt
success is returned with no retry; and every failure kind is retried up
to the 3-attempt cap — a persistent transport failure ends as status
503, a persistent HTTP error (4xx included) ends carrying the upstream
status code, and a persistent decode failure ends as status 500. -/
theorem C8_retry_behaviour {α : Type} (oracle : ℕ → UpstreamOutcome α) :
    (getWithRetry oracle).2 ≤ 3 ∧
      (∀ v, oracle 0 = .ok v → getWithRetry oracle = (.ok v, 1)) ∧
      (∀ c, (∀ i, i < 3 → oracle i = .httpStatus c) →
        getWithRetry oracle = (.error { status_code := c }, 3)) ∧
      ((∀ i, i < 3 → oracle i = .transportError) →
        getWithRetry oracle = (.error { status_code := 503 }, 3)) ∧
      ((∀ i, i < 3 → oracle i = .decodeError) →
        getWithRetry oracle = (.error { status_code := 500 }, 3)) := by
  refine ⟨?_, ?_, ?_, ?_, ?_⟩
  · rw [getWithRetry]
    cases makeRequest (oracle 0) with
    | ok v => norm_num
    | error e =>
        cases makeRequest (oracle 1) with
        | ok v => norm_num
        | error e => norm_num
  · intro v h0
    rw [getWithRetry, h0]
    rfl
  · intro c hc
    rw [getWithRetry, hc 0 (by norm_num), hc 1 (by norm_num), hc 2 (by norm_num)]
    rfl
  · intro hc
    rw [getWithRetry, hc 0 (by norm_num), hc 1 (by norm_num), hc 2 (by norm_num)]
    rfl
  · intro hc
    rw [getWithRetry, hc 0 (by norm_num), hc 1 (by norm_num), hc 2 (by norm_num)]
    rfl

/-- C8 witness: the retry contract at concrete oracles — an immediate
success is one attempt; a persistent 404 is three. -/
theorem C8_retry_behaviour_witness :
    getWithRetry (fun _ => UpstreamOutcome.ok (5 : ℕ)) = (.ok 5, 1) ∧
      getWithRetry (fun _ => UpstreamOutcome.httpStatus (α := ℕ) 404) =
        (.error { status_code := 404 }, 3) := by
  have h1 := C8_retry_behaviour (fun _ => UpstreamOutcome.ok (5 : ℕ))
  have h2 := C8_retry_behaviour (fun _ => UpstreamOutcome.httpStatus (α := ℕ) 404)
  exact ⟨h1.2.1 5 rfl, h2.2.2.1 404 (fun i _ => rfl)⟩

/-! ### In-process cache lemmas and claim C9 -/

/-- C9 (counterexample).  A key set with TTL 5 at instant 0, read at
instant 10: `get` honours the expiry and returns absent, but `exists`
still returns true — it checks only the value dict and never the expiry
dict. -/
theorem C9_exists_ignores_expiry_counterexample :
    (memoryGet (memorySet (MemoryCache.mk ([] : List (String × ℕ)) []) 0 "k" 1 (some 5))
        10 "k").1 = none ∧
      memoryExists (memorySet (MemoryCache.mk ([] : List (String × ℕ)) []) 0 "k" 1 (some 5))
        "k" = true := by
  constructor
  · simp only [memorySet, memoryGet, alinsert, alookup, alerase]
    norm_num
  · simp [memorySet, memoryExists, alinsert, alookup]

/-- C9 (amended).  For any state whose value dict has no duplicate
keys, any key set with a non-zero TTL `ttl` at instant `t0`: once the
expiry instant `t0 + ttl` has passed, `get` returns absent (purging the
key), but `exists` still answers true until such a `get` runs; after
the purging `get`, `exists` answers false. -/
theorem C9_memory_cache_expiry {α : Type} (st : MemoryCache α) (t0 now ttl : ℚ)
    (key : String) (v : α)
    (hnd : (st.cache.map Prod.fst).Nodup)
    (httl : ttl ≠ 0) (hexp : t0 + ttl < now) :
    (memoryGet (memorySet st t0 key v (some ttl)) now key).1 = none ∧
      memoryExists (memorySet st t0 key v (some ttl)) key = true ∧
      memoryExists (memoryGet (memorySet st t0 key v (some ttl)) now key).2 key = false := by
  have hset : (memorySet st t0 key v (some ttl)).expires =
      alinsert st.expires key (t0 + ttl) := by
    simp [memorySet, httl]
  have hlook : alookup (memorySet st t0 key v (some ttl)).expires key = some (t0 + ttl) := by
    rw [hset, alookup_alinsert]
  refine ⟨?_, ?_, ?_⟩
  · rw [memoryGet, hlook]
    simp [hexp]
  · simp [memoryExists, memorySet, alookup_alinsert]
  · rw [memoryGet, hlook]
    simp only [if_pos hexp]
    rw [memoryExists]
    have : alookup (alerase (memorySet st t0 key v (some ttl)).cache key) key = none := by
      apply alookup_alerase_self
      simp only [memorySet]
      exact alinsert_nodup_keys st.cache key v hnd
    simp [this]

/-- C9 witness: the expiry behaviour at a concrete cache state. -/
theorem C9_memory_cache_expiry_witness :
    (memoryGet (memorySet (MemoryCache.mk ([] : List (String × ℕ)) []) 0 "k" 1 (some 5))
        10 "k").1 = none ∧
      memoryExists
        (memoryGet (memorySet (MemoryCache.mk ([] : List (String × ℕ)) []) 0 "k" 1 (some 5))
          10 "k").2 "k" = false := by
  have h := C9_memory_cache_expiry (MemoryCache.mk ([] : List (String × ℕ)) []) 0 10 5
    "k" 1 (by simp) (by norm_num) (by norm_num)
  exact ⟨h.1, h.2.2⟩

/-! ### Similarity lemmas and claim C5 -/

theorem calculateTitleSimilarity_comm (tok : String → List String) (a b : String) :
    calculateTitleSimilarity tok a b = calculateTitleSimilarity tok b a := by
  simp only [calculateTitleSimilarity]
  rw [Finset.inter_comm, Finset.union_comm]

theorem calculateTitleSimilarity_self (tok : String → List String) (a : String)
    (h : (tok a).toFinset.Nonempty) : calculateTitleSimilarity tok a a = 1 := by
  have hpos : 0 < (tok a).toFinset.card := Finset.card_pos.mpr h
  have hcard : (tok a).toFinset.card ≠ 0 := by omega
  simp only [calculateTitleSimilarity, Finset.inter_self, Finset.union_self]
  rw [if_neg hcard]
  have hq : ((tok a).toFinset.card : ℚ) ≠ 0 := by exact_mod_cast hcard
  exact div_self hq

theorem calculateTitleSimilarity_empty (tok : String → List String) (a b : String)
    (h : tok b = []) : calculateTitleSimilarity tok a b = 0 := by
  simp only [calculateTitleSimilarity]
  rw [h]
  simp only [List.toFinset_nil, Finset.inter_empty, Finset.card_empty,
    Finset.union_empty, Nat.cast_zero]
  split <;> simp

theorem tokenizeText_empty_string (jiebaCut : String → List String) :
    tokenizeText jiebaCut "" = [] := by
  rfl

/-- C5 (counterexample).  The claim asserts `jaccard(a, a) = 1` for
every title, including titles whose tokenization yields an empty set.
The title `"the"` tokenizes to the empty set (it is a stop word), so the
union is empty and `_calculate_title_similarity` returns 0, not 1. -/
theorem C5_jaccard_self_counterexample :
    calculateTitleSimilarity (tokenizeText (fun _ => [])) "the" "the" = 0 ∧
      calculateTitleSimilarity (tokenizeText (fun _ => [])) "the" "the" ≠ 1 := by
  have htok : tokenizeText (fun _ => []) "the" = [] := by decide
  have hz : calculateTitleSimilarity (tokenizeText (fun _ => [])) "the" "the" = 0 :=
    calculateTitleSimilarity_empty _ _ _ htok
  exact ⟨hz, by rw [hz]; norm_num⟩

/-- C5 (amended).  For every tokenizer and all titles: `jaccard(a, a) = 1`
whenever the tokenization of `a` is non-empty (for a title tokenizing to
the empty set the similarity is 0 instead, by the empty-union rule);
`jaccard(a, b) = jaccard(b, a)` always; and `jaccard(a, b) = 0` whenever
`b` tokenizes to the empty set — in particular for the empty title,
whose tokenization is always empty. -/
theorem C5_jaccard_properties (tok : String → List String) (a b : String) :
    ((tok a).toFinset.Nonempty → calculateTitleSimilarity tok a a = 1) ∧
      calculateTitleSimilarity tok a b = calculateTitleSimilarity tok b a ∧
      (tok b = [] → calculateTitleSimilarity tok a b = 0) ∧
      (∀ jiebaCut : String → List String,
        calculateTitleSimilarity (tokenizeText jiebaCut) a "" = 0) := by
  refine ⟨calculateTitleSimilarity_self tok a,
    calculateTitleSimilarity_comm tok a b,
    calculateTitleSimilarity_empty tok a b,
    fun jiebaCut => ?_⟩
  exact calculateTitleSimilarity_empty _ _ _ (tokenizeText_empty_string jiebaCut)

/-- C5 witness: the amended properties at concrete titles, using the
fallback Latin tokenizer; the hypotheses are discharged by evaluation. -/
theorem C5_jaccard_properties_witness :
    calculateTitleSimilarity (tokenizeText (fun _ => [])) "hello world" "hello world" = 1 ∧
      calculateTitleSimilarity (tokenizeText (fun _ => [])) "hello world" "" = 0 := by
  have h := C5_jaccard_properties (tokenizeText (fun _ => [])) "hello world" ""
  exact ⟨h.1 (by decide), h.2.2.1 (by decide)⟩

/-! ### Score-calculator lemmas and claims C1, C2, C10 -/

theorem toFinset_nonempty_of_ne_nil (l : List String) (h : l ≠ []) :
    l.toFinset.Nonempty := by
  cases hl : l with
  | nil => exact absurd hl h
  | cons a t => exact ⟨a, by simp [hl]⟩

theorem calculateCrossSourceCount_single (tok : String → List String)
    (item : NewsItemIn) (htok : tok item.title ≠ []) :
    calculateCrossSourceCount tok item.title [item] = 1 := by
  have hsim : calculateTitleSimilarity tok item.title item.title = 1 :=
    calculateTitleSimilarity_self tok _ (toFinset_nonempty_of_ne_nil _ htok)
  have hlt : (6 : ℚ) / 10 < calculateTitleSimilarity tok item.title item.title := by
    rw [hsim]; norm_num
  rw [calculateCrossSourceCount]
  simp only [List.filter_cons, List.filter_nil, decide_eq_true hlt, if_true]
  simp

theorem recencyScore_zero : recencyScore 0 = 100 := by
  rw [recencyScore]
  norm_num [DECAY_FACTOR]

theorem recencyScore_le_100 (h : ℚ) (hh : 0 ≤ h) : recencyScore h ≤ 100 := by
  rw [recencyScore]
  have hle : Real.exp (-(h : ℝ) / DECAY_FACTOR) ≤ 1 := by
    rw [Real.exp_le_one_iff]
    rw [DECAY_FACTOR]
    have : (0 : ℝ) ≤ (h : ℝ) := by exact_mod_cast hh
    apply div_nonpos_of_nonpos_of_nonneg <;> [linarith; norm_num]
  nlinarith [Real.exp_pos (-(h : ℝ) / DECAY_FACTOR)]

theorem recencyScore_pos (h : ℚ) : 0 < recencyScore h := by
  rw [recencyScore]
  positivity

theorem platformBaselines_pos (source_id : String) : 0 < platformBaselines source_id := by
  rw [platformBaselines]
  split <;> [norm_num; split <;> [norm_num; split <;> norm_num]]

/-- Shared evaluation of `calculate_heat_score` on the spec's
scenario-1 item: relevance stubbed to 0, one-item batch, publication at
the calculation instant. -/
theorem calculateHeatScore_scenario1 (tok : String → List String)
    (parse : String → Option ℚ) (now : ℚ)
    (htok : tok itemC2.title ≠ [])
    (hparse : parse itemC2.published_at = some now) :
    (calculateHeatScore tok 0 parse now itemC2 [itemC2]).relevance_score = 0 ∧
      (calculateHeatScore tok 0 parse now itemC2 [itemC2]).recency_score = 100 ∧
      (calculateHeatScore tok 0 parse now itemC2 [itemC2]).popularity_score = 100 ∧
      (calculateHeatScore tok 0 parse now itemC2 [itemC2]).cross_source_score = 10 ∧
      (calculateHeatScore tok 0 parse now itemC2 [itemC2]).source_weight = 90 ∧
      (calculateHeatScore tok 0 parse now itemC2 [itemC2]).heat_score = 51 := by
  have hcount := calculateCrossSourceCount_single tok itemC2 htok
  have hkey : keywordScoreOf 0 = 0 := by
    norm_num [keywordScoreOf, BASELINE_FACTOR]
  have hcross : calculateCrossSourceScore tok itemC2.title [itemC2] = 10 := by
    rw [calculateCrossSourceScore, hcount]
    norm_num
  have hplat : normalizePlatformScore { view_count := some 10000 } "weibo" = 100 := by
    rw [normalizePlatformScore, originalMetricScore]
    norm_num [platformBaselines]
  have hw : getSourceWeight "weibo" = 90 := by rw [getSourceWeight]; norm_num
  have hrec : recencyScore (now - (parse itemC2.published_at).getD now) = 100 := by
    rw [hparse, Option.getD_some, sub_self, recencyScore_zero]
  simp only [itemC2] at hparse hcross
  simp only [calculateHeatScore, itemC2, hparse, Option.getD_some, sub_self,
    recencyScore_zero, hkey, hcross, hplat, hw]
  push_cast
  norm_num [W_KEYWORD, W_RECENCY, W_PLATFORM, W_CROSS_SOURCE, W_SOURCE,
    max_def, min_def]

/-- C1 (counterexample).  The claim asserts every sub-score lies in
[0, 100] even for items published in the future of the calculation
time.  For an item whose `published_at` parses to 24 hours after `now`,
`hours_passed = -24` and the persisted
`recency_score = 100·exp(1) > 100`: the code never clamps the recency
sub-score. -/
theorem C1_recency_above_100_counterexample :
    100 < (calculateHeatScore (fun _ => ["future"]) 0 (fun _ => some 24) 0
      itemC1 [itemC1]).recency_score := by
  simp only [calculateHeatScore, itemC1, Option.getD_some]
  rw [recencyScore, DECAY_FACTOR]
  have h1 : (1 : ℝ) < Real.exp 1 := by
    have := Real.add_one_le_exp 1
    linarith
  have hc : (-(((0 : ℚ) - 24 : ℚ) : ℝ) / 24) = 1 := by
    push_cast
    norm_num
  rw [hc]
  linarith

/-- C1 (amended).  For every input: the persisted `heat_score` and
`relevance_score` always lie in [0, 100]; `recency_score` lies in
(0, 100] whenever the parsed publication time does not lie in the
future of the calculation time (for a future `published_at` it exceeds
100, unclamped); and `popularity_score` lies in [0, 100] whenever the
selected raw metric is non-negative (a negative metric drives it below
0, as `min(raw/baseline·100, 100)` has no lower clamp). -/
theorem C1_score_ranges (tok : String → List String) (sc : ℕ)
    (parse : String → Option ℚ) (now : ℚ) (item : NewsItemIn)
    (batch : List NewsItemIn) :
    (0 ≤ (calculateHeatScore tok sc parse now item batch).heat_score ∧
        (calculateHeatScore tok sc parse now item batch).heat_score ≤ 100) ∧
      (0 ≤ (calculateHeatScore tok sc parse now item batch).relevance_score ∧
        (calculateHeatScore tok sc parse now item batch).relevance_score ≤ 100) ∧
      ((parse item.published_at).getD now ≤ now →
        0 < (calculateHeatScore tok sc parse now item batch).recency_score ∧
          (calculateHeatScore tok sc parse now item batch).recency_score ≤ 100) ∧
      (0 ≤ originalMetricOfItem item →
        0 ≤ (calculateHeatScore tok sc parse now item batch).popularity_score ∧
          (calculateHeatScore tok sc parse now item batch).popularity_score ≤ 100) := by
  refine ⟨⟨?_, ?_⟩, ⟨?_, ?_⟩, ?_, ?_⟩
  · simp only [calculateHeatScore]
    exact le_min (le_max_right _ 0) (by norm_num)
  · simp only [calculateHeatScore]
    exact min_le_right _ 100
  · simp only [calculateHeatScore, keywordScoreOf, BASELINE_FACTOR]
    exact le_min (by positivity) (by norm_num)
  · simp only [calculateHeatScore, keywordScoreOf]
    exact min_le_right _ 100
  · intro hp
    simp only [calculateHeatScore]
    exact ⟨recencyScore_pos _, recencyScore_le_100 _ (sub_nonneg.mpr hp)⟩
  · intro hm
    simp only [calculateHeatScore]
    cases hmet : item.metrics with
    | none => norm_num
    | some m =>
        rw [originalMetricOfItem, hmet] at hm
        simp only [normalizePlatformScore]
        constructor
        · refine le_min ?_ (by norm_num)
          have hb := platformBaselines_pos item.source_id
          positivity
        · exact min_le_right _ 100

/-- C1 witness: the amended bounds at a concrete item published exactly
at the calculation time and carrying no metrics. -/
theorem C1_score_ranges_witness :
    0 ≤ (calculateHeatScore (fun _ => []) 0 (fun _ => none) 0 itemC1 []).heat_score ∧
      0 < (calculateHeatScore (fun _ => []) 0 (fun _ => none) 0 itemC1 []).recency_score ∧
      0 ≤ (calculateHeatScore (fun _ => []) 0 (fun _ => none) 0 itemC1 []).popularity_score := by
  have h := C1_score_ranges (fun _ => []) 0 (fun _ => none) 0 itemC1 []
  exact ⟨h.1.1, (h.2.2.1 (by simp)).1, (h.2.2.2 (by decide)).1⟩

/-- C2 (counterexample).  On the scenario-1 input the computed
cross-source score is 10, not 0 — `_calculate_cross_source_score` does
not exclude the item itself, so its own source is counted — and the
final heat is 0.30·0 + 0.25·100 + 0.15·100 + 0.20·10 + 0.10·90 = 51,
not 49. -/
theorem C2_scenario1_counterexample :
    (calculateHeatScore (fun _ => ["测试热点"]) 0 (fun _ => some 0) 0
        itemC2 [itemC2]).cross_source_score = 10 ∧
      (calculateHeatScore (fun _ => ["测试热点"]) 0 (fun _ => some 0) 0
        itemC2 [itemC2]).heat_score = 51 ∧
      (calculateHeatScore (fun _ => ["测试热点"]) 0 (fun _ => some 0) 0
        itemC2 [itemC2]).cross_source_score ≠ 0 ∧
      (calculateHeatScore (fun _ => ["测试热点"]) 0 (fun _ => some 0) 0
        itemC2 [itemC2]).heat_score ≠ 49 := by
  have h := calculateHeatScore_scenario1 (fun _ => ["测试热点"]) (fun _ => some 0) 0
    (by simp) rfl
  refine ⟨h.2.2.2.1, h.2.2.2.2.2, ?_, ?_⟩
  · rw [h.2.2.2.1]; norm_num
  · rw [h.2.2.2.2.2]; norm_num

/-- C2 (amended).  For the scenario-1 item scored against a batch
containing only itself, with relevance stubbed to 0 and `published_at`
parsing to the calculation time: the sub-scores are relevance 0,
recency 100, platform popularity 100, source weight 90 — and
cross-source = 10 (the item's own source counts, as the batch filter
does not exclude the item itself), so the final heat is
0.30·0 + 0.25·100 + 0.15·100 + 0.20·10 + 0.10·90 = 51. -/
theorem C2_scenario1_scores (tok : String → List String)
    (parse : String → Option ℚ) (now : ℚ)
    (htok : tok itemC2.title ≠ [])
    (hparse : parse itemC2.published_at = some now) :
    (calculateHeatScore tok 0 parse now itemC2 [itemC2]).relevance_score = 0 ∧
      (calculateHeatScore tok 0 parse now itemC2 [itemC2]).recency_score = 100 ∧
      (calculateHeatScore tok 0 parse now itemC2 [itemC2]).popularity_score = 100 ∧
      (calculateHeatScore tok 0 parse now itemC2 [itemC2]).cross_source_score = 10 ∧
      (calculateHeatScore tok 0 parse now itemC2 [itemC2]).source_weight = 90 ∧
      (calculateHeatScore tok 0 parse now itemC2 [itemC2]).heat_score = 51 :=
  calculateHeatScore_scenario1 tok parse now htok hparse

/-- C2 witness: the amended scenario evaluation at a concrete tokenizer
and parser. -/
theorem C2_scenario1_scores_witness :
    (calculateHeatScore (fun _ => ["测试", "热点"]) 0 (fun _ => some 5) 5
        itemC2 [itemC2]).heat_score = 51 ∧
      (calculateHeatScore (fun _ => ["测试", "热点"]) 0 (fun _ => some 5) 5
        itemC2 [itemC2]).cross_source_score = 10 := by
  have h := C2_scenario1_scores (fun _ => ["测试", "热点"]) (fun _ => some 5) 5
    (by simp) rfl
  exact ⟨h.2.2.2.2.2, h.2.2.2.1⟩

/-- C10 (confirmed).  When `published_at` cannot be parsed, the item is
not skipped: the calculator substitutes the current UTC instant as the
publication time, so `hours_passed = 0`, the persisted
`recency_score = 100·exp(0) = 100`, and the row is stored with
`published_at` equal to the calculation time. -/
theorem C10_unparseable_published_at (tok : String → List String) (sc : ℕ)
    (parse : String → Option ℚ) (now : ℚ) (item : NewsItemIn)
    (batch : List NewsItemIn) (hparse : parse item.published_at = none) :
    (calculateHeatScore tok sc parse now item batch).recency_score = 100 ∧
      (calculateHeatScore tok sc parse now item batch).published_at = now ∧
      (calculateHeatScore tok sc parse now item batch).calculated_at = now := by
  simp [calculateHeatScore, hparse, Option.getD_none, sub_self, recencyScore_zero]

/-- C10 witness: a parser that fails on the concrete item yields
recency 100 and a publication time equal to the calculation time. -/
theorem C10_unparseable_published_at_witness :
    (calculateHeatScore (fun _ => []) 0 (fun _ => none) 7 itemC1 []).recency_score = 100 ∧
      (calculateHeatScore (fun _ => []) 0 (fun _ => none) 7 itemC1 []).published_at = 7 := by
  have h := C10_unparseable_published_at (fun _ => []) 0 (fun _ => none) 7 itemC1 [] rfl
  exact ⟨h.1, h.2.1⟩

/-! ### Source-weight lemmas and claim C3 -/

/-- C3 (counterexample).  One weibo item with `view_count = 100000`
gives average normalized engagement 100 and frequency 50.  The claim's
formula yields `0.5·90 + 0.3·100 + 0.2·50 = 85`, but the code divides
the average engagement by 1000 again (`min(avg_engagement/1000, 100)`),
so the stored weight is `45 + 0.03 + 10 = 55.03`. -/
theorem C3_engagement_scale_counterexample :
    (computeSourceStat (fun _ => none) "weibo" [itemC3]).avg_engagement = 100 ∧
      (computeSourceStat (fun _ => none) "weibo" [itemC3]).weight = 5503 / 100 ∧
      sourceWeightSpec (baseWeightTable "weibo")
        (computeSourceStat (fun _ => none) "weibo" [itemC3]).avg_engagement
        (computeSourceStat (fun _ => none) "weibo" [itemC3]).update_frequency = 85 ∧
      (computeSourceStat (fun _ => none) "weibo" [itemC3]).weight ≠
        sourceWeightSpec (baseWeightTable "weibo")
          (computeSourceStat (fun _ => none) "weibo" [itemC3]).avg_engagement
          (computeSourceStat (fun _ => none) "weibo" [itemC3]).update_frequency := by
  have havg : (computeSourceStat (fun _ => none) "weibo" [itemC3]).avg_engagement = 100 := by
    norm_num [computeSourceStat, itemC3, itemMetrics, normalizedEngagement,
      engagementOf, engagementBaseline]
  have hfreq : (computeSourceStat (fun _ => none) "weibo" [itemC3]).update_frequency = 50 := by
    norm_num [computeSourceStat, computeUpdateFrequency]
  have hw : (computeSourceStat (fun _ => none) "weibo" [itemC3]).weight = 5503 / 100 := by
    norm_num [computeSourceStat, itemC3, itemMetrics, normalizedEngagement,
      engagementOf, engagementBaseline, computeUpdateFrequency, baseWeightTable]
  have hspec : sourceWeightSpec (baseWeightTable "weibo") 100 50 = 85 := by
    norm_num [sourceWeightSpec, baseWeightTable]
  refine ⟨havg, hw, ?_, ?_⟩
  · rw [havg, hfreq]; exact hspec
  · rw [havg, hfreq, hw, hspec]; norm_num

/-- C3 (amended).  For every source with at least one fetched item:
`avg_engagement` is the average over items of
`min(raw/baseline·100, 100)` with `raw = view·1 + like·3 + comment·5 +
share·10` and the per-source baseline table; and the stored weight is
`0.5·base + 0.3·min(avg_engagement/1000, 100) + 0.2·update_frequency`
clamped to [10, 100] — the engagement term enters divided by 1000, not
as the average itself. -/
theorem C3_source_weight_formula (parse : String → Option ℚ) (source_id : String)
    (news_items : List SourceItem) (hne : news_items ≠ []) :
    (computeSourceStat parse source_id news_items).avg_engagement =
        ((news_items.map (fun it => normalizedEngagement source_id (itemMetrics it))).sum) /
          (news_items.length : ℚ) ∧
      (computeSourceStat parse source_id news_items).weight =
        max (min (baseWeightTable source_id * 0.5 +
          (min ((computeSourceStat parse source_id news_items).avg_engagement / 1000) 100) * 0.3 +
          (computeSourceStat parse source_id news_items).update_frequency * 0.2) 100) 10 ∧
      10 ≤ (computeSourceStat parse source_id news_items).weight ∧
      (computeSourceStat parse source_id news_items).weight ≤ 100 := by
  have hlen : 0 < news_items.length := List.length_pos.mpr hne
  refine ⟨?_, ?_, ?_, ?_⟩
  · simp only [computeSourceStat, if_pos hlen]
  · simp only [computeSourceStat, if_pos hlen]
  · simp only [computeSourceStat]
    exact le_max_right _ _
  · simp only [computeSourceStat]
    exact max_le (min_le_right _ _) (by norm_num)

/-- C3 witness: the amended formula at the concrete weibo item — the
clamp bounds hold and the average engagement evaluates to 100. -/
theorem C3_source_weight_formula_witness :
    10 ≤ (computeSourceStat (fun _ => none) "weibo" [itemC3]).weight ∧
      (computeSourceStat (fun _ => none) "weibo" [itemC3]).weight ≤ 100 ∧
      (computeSourceStat (fun _ => none) "weibo" [itemC3]).avg_engagement = 100 := by
  have h := C3_source_weight_formula (fun _ => none) "weibo" [itemC3] (by simp)
  refine ⟨h.2.2.1, h.2.2.2, ?_⟩
  rw [h.1]
  norm_num [normalizedEngagement, itemMetrics, itemC3, engagementOf, engagementBaseline]

/-! ### Stable-sort lemmas -/

theorem mem_insertSorted {α : Type} (le : α → α → Bool) (x a : α) (l : List α) :
    a ∈ insertSorted le x l ↔ a = x ∨ a ∈ l := by
  induction l with
  | nil => simp [insertSorted]
  | cons y ys ih =>
      by_cases h : le x y
      · simp [insertSorted, h]
      · simp [insertSorted, h, ih]
        tauto

theorem mem_insertionSort {α : Type} (le : α → α → Bool) (a : α) (l : List α) :
    a ∈ insertionSort le l ↔ a ∈ l := by
  induction l with
  | nil => simp [insertionSort]
  | cons x xs ih => simp [insertionSort, mem_insertSorted, ih]

theorem pairwise_insertSorted {α : Type} (le : α → α → Bool)
    (htot : ∀ a b, le a b = true ∨ le b a = true)
    (htr : ∀ a b c, le a b = true → le b c = true → le a c = true)
    (x : α) (l : List α) (hl : l.Pairwise (fun a b => le a b = true)) :
    (insertSorted le x l).Pairwise (fun a b => le a b = true) := by
  induction l with
  | nil => simp [insertSorted]
  | cons y ys ih =>
      rw [List.pairwise_cons] at hl
      by_cases h : le x y
      · rw [insertSorted, if_pos h, List.pairwise_cons]
        refine ⟨?_, List.Pairwise.cons hl.1 hl.2⟩
        intro b hb
        rcases List.mem_cons.mp hb with hb1 | hb1
        · subst hb1; exact h
        · exact htr x y b h (hl.1 b hb1)
      · rw [insertSorted, if_neg h, List.pairwise_cons]
        have hyx : le y x = true := (htot x y).resolve_left h
        refine ⟨?_, ih hl.2⟩
        intro b hb
        rcases (mem_insertSorted le x b ys).mp hb with hb | hb
        · subst hb; exact hyx
        · exact hl.1 b hb

theorem pairwise_insertionSort {α : Type} (le : α → α → Bool)
    (htot : ∀ a b, le a b = true ∨ le b a = true)
    (htr : ∀ a b c, le a b = true → le b c = true → le a c = true)
    (l : List α) :
    (insertionSort le l).Pairwise (fun a b => le a b = true) := by
  induction l with
  | nil => simp [insertionSort]
  | cons x xs ih => exact pairwise_insertSorted le htot htr x _ ih

theorem filter_insertSorted {α : Type} (le : α → α → Bool) (p : α → Bool)
    (htr : ∀ a b c, le a b = true → le b c = true → le a c = true)
    (x : α) (l : List α) (hl : l.Pairwise (fun a b => le a b = true)) :
    (insertSorted le x l).filter p =
      if p x then insertSorted le x (l.filter p) else l.filter p := by
  induction l with
  | nil =>
      by_cases hp : p x <;> simp [insertSorted, hp, List.filter]
  | cons y ys ih =>
      rw [List.pairwise_cons] at hl
      by_cases h : le x y
      · rw [insertSorted, if_pos h]
        by_cases hp : p x
        · rw [if_pos hp]
          by_cases hq : p y
          · simp only [List.filter_cons, hp, hq, if_pos]
            rw [insertSorted, if_pos h]
          · simp only [List.filter_cons, hp, hq]
            simp only [Bool.false_eq_true, if_false, if_true]
            cases hys : ys.filter p with
            | nil => simp [insertSorted]
            | cons z zs =>
                have hz : z ∈ ys.filter p := by rw [hys]; exact List.mem_cons_self z zs
                have hzy : z ∈ ys := (List.mem_filter.mp hz).1
                have hxz : le x z = true := htr x y z h (hl.1 z hzy)
                rw [insertSorted, if_pos hxz]
        · rw [if_neg hp]
          simp [List.filter_cons, hp]
      · rw [insertSorted, if_neg h]
        by_cases hp : p x
        · rw [if_pos hp]
          by_cases hq : p y
          · simp only [List.filter_cons, hq, if_pos, hp]
            rw [ih hl.2, if_pos hp, insertSorted, if_neg h]
          · simp only [List.filter_cons, hq]
            simp only [Bool.false_eq_true, if_false]
            rw [ih hl.2, if_pos hp]
        · rw [if_neg hp]
          by_cases hq : p y
          · simp only [List.filter_cons, hq, if_pos]
            rw [ih hl.2, if_neg hp]
          · simp only [List.filter_cons, hq]
            simp only [Bool.false_eq_true, if_false]
            rw [ih hl.2, if_neg hp]

theorem filter_insertionSort {α : Type} (le : α → α → Bool) (p : α → Bool)
    (htot : ∀ a b, le a b = true ∨ le b a = true)
    (htr : ∀ a b c, le a b = true → le b c = true → le a c = true)
    (l : List α) :
    (insertionSort le l).filter p = insertionSort le (l.filter p) := by
  induction l with
  | nil => simp [insertionSort]
  | cons x xs ih =>
      rw [insertionSort,
        filter_insertSorted le p htr x _ (pairwise_insertionSort le htot htr xs)]
      by_cases hp : p x
      · rw [if_pos hp, ih, List.filter_cons]
        simp only [hp, if_true]
        rfl
      · rw [if_neg hp, ih, List.filter_cons]
        simp only [hp, Bool.false_eq_true, if_false]

theorem find?_eq_head?_filter {α : Type} (p : α → Bool) (l : List α) :
    l.find? p = (l.filter p).head? := by
  induction l with
  | nil => simp
  | cons x xs ih =>
      by_cases hp : p x
      · rw [List.find?_cons_of_pos _ hp, List.filter_cons]
        simp [hp]
      · rw [List.find?_cons_of_neg _ hp, List.filter_cons, ih]
        simp [hp]

/-! ### Store lemmas and claims C6, C7 -/

theorem calcAtDescLe_total (a b : HeatScoreRow) :
    calcAtDescLe a b = true ∨ calcAtDescLe b a = true := by
  simp only [calcAtDescLe, decide_eq_true_eq]
  exact le_total b.calculated_at a.calculated_at

theorem calcAtDescLe_trans (a b c : HeatScoreRow) :
    calcAtDescLe a b = true → calcAtDescLe b c = true → calcAtDescLe a c = true := by
  simp only [calcAtDescLe, decide_eq_true_eq]
  intro h1 h2
  exact le_trans h2 h1

theorem alookup_collectRows (acc : List (String × HeatScoreRow))
    (rows : List HeatScoreRow) (x : String) :
    alookup (collectRows acc rows) x =
      oor (alookup acc x) (rows.find? (fun r => r.news_id == x)) := by
  induction rows generalizing acc with
  | nil => cases h : alookup acc x <;> simp [collectRows, List.find?, oor, h]
  | cons r rs ih =>
      rw [collectRows, List.foldl_cons]
      by_cases hin : (alookup acc r.news_id).isSome
      · rw [if_pos hin]
        rw [show List.foldl
            (fun a r => if (alookup a r.news_id).isSome then a else a ++ [(r.news_id, r)])
            acc rs = collectRows acc rs from rfl, ih]
        by_cases hx : r.news_id = x
        · subst hx
          obtain ⟨v, hv⟩ := Option.isSome_iff_exists.mp hin
          rw [hv, List.find?_cons_of_pos _ (by simp)]
          simp [oor]
        · rw [List.find?_cons_of_neg _ (by simp [hx])]
      · rw [if_neg hin]
        rw [show List.foldl
            (fun a r => if (alookup a r.news_id).isSome then a else a ++ [(r.news_id, r)])
            (acc ++ [(r.news_id, r)]) rs = collectRows (acc ++ [(r.news_id, r)]) rs from rfl,
          ih, alookup_append_single]
        have hnone : alookup acc r.news_id = none := by
          cases hh : alookup acc r.news_id
          · rfl
          · rw [hh] at hin; simp at hin
        by_cases hx : r.news_id = x
        · subst hx
          rw [hnone, List.find?_cons_of_pos _ (by simp)]
          simp [oor]
        · have hx' : x ≠ r.news_id := fun he => hx he.symm
          rw [if_neg hx', List.find?_cons_of_neg _ (by simp [hx])]
          cases alookup acc x <;> simp [oor]

theorem find?_queryByNewsIds_mem (db : List HeatScoreRow) (ids : List String)
    (x : String) (hx : x ∈ ids) :
    (queryByNewsIds db ids).find? (fun r => r.news_id == x) = getByNewsId db x := by
  rw [queryByNewsIds, find?_eq_head?_filter,
    filter_insertionSort _ _ calcAtDescLe_total calcAtDescLe_trans,
    List.filter_filter]
  rw [getByNewsId]
  congr 2
  apply List.filter_congr
  intro r _
  by_cases h : r.news_id = x
  · simp [h, hx]
  · simp [h]

theorem find?_queryByNewsIds_not_mem (db : List HeatScoreRow) (ids : List String)
    (x : String) (hx : x ∉ ids) :
    (queryByNewsIds db ids).find? (fun r => r.news_id == x) = none := by
  rw [List.find?_eq_none]
  intro r hr
  have hr' := (List.mem_filter.mp ((mem_insertionSort _ _ _).mp hr)).2
  have hrm : r.news_id ∈ ids := by simpa using hr'
  intro hbeq
  have : r.news_id = x := by simpa using hbeq
  exact hx (this ▸ hrm)

theorem alookup_fold_chunks (db : List HeatScoreRow) (chs : List (List String))
    (acc : List (String × HeatScoreRow)) (x : String) :
    alookup (chs.foldl (fun acc batch => collectRows acc (queryByNewsIds db batch)) acc) x =
      oor (alookup acc x) (if ∃ b ∈ chs, x ∈ b then getByNewsId db x else none) := by
  induction chs generalizing acc with
  | nil => cases h : alookup acc x <;> simp [oor, h]
  | cons b rest ih =>
      rw [List.foldl_cons, ih, alookup_collectRows]
      by_cases hb : x ∈ b
      · rw [find?_queryByNewsIds_mem db b x hb]
        cases halo : alookup acc x with
        | some v => simp [oor]
        | none =>
            simp only [oor_none]
            have hcond : ∃ b' ∈ b :: rest, x ∈ b' := ⟨b, List.mem_cons_self b rest, hb⟩
            rw [if_pos hcond]
            cases hg : getByNewsId db x with
            | some v => simp [oor]
            | none => split <;> simp [oor]
      · rw [find?_queryByNewsIds_not_mem db b x hb]
        cases halo : alookup acc x with
        | some v => simp [oor]
        | none =>
            simp only [oor]
            have hiff : (∃ b' ∈ b :: rest, x ∈ b') ↔ (∃ b' ∈ rest, x ∈ b') := by
              constructor
              · rintro ⟨b', hb', hxb'⟩
                rcases List.mem_cons.mp hb' with h | h
                · exact absurd (h ▸ hxb') hb
                · exact ⟨b', h, hxb'⟩
              · rintro ⟨b', hb', hxb'⟩
                exact ⟨b', List.mem_cons_of_mem _ hb', hxb'⟩
            by_cases hc : ∃ b' ∈ rest, x ∈ b'
            · rw [if_pos hc, if_pos (hiff.mpr hc)]
            · rw [if_neg hc, if_neg (fun h => hc (hiff.mp h))]

theorem mem_chunkList (n : ℕ) (l : List String) (x : String) :
    (∃ c ∈ chunkList n l, x ∈ c) ↔ x ∈ l := by
  induction l using chunkList.induct n with
  | case1 => simp [chunkList]
  | case2 y ys ih =>
      rw [chunkList]
      constructor
      · rintro ⟨c, hc, hxc⟩
        rcases List.mem_cons.mp hc with h | h
        · subst h
          rcases List.mem_cons.mp hxc with h | h
          · exact h ▸ List.mem_cons_self y ys
          · exact List.mem_cons_of_mem y (List.mem_of_mem_take h)
        · have := ih.mp ⟨c, h, hxc⟩
          exact List.mem_cons_of_mem y (List.mem_of_mem_drop this)
      · intro hx
        rcases List.mem_cons.mp hx with h | h
        · exact ⟨y :: ys.take (n - 1), List.mem_cons_self _ _, h ▸ List.mem_cons_self y _⟩
        · rcases List.mem_append.mp ((List.take_append_drop (n - 1) ys) ▸ h) with h1 | h1
          · exact ⟨y :: ys.take (n - 1), List.mem_cons_self _ _,
              List.mem_cons_of_mem y h1⟩
          · obtain ⟨c, hc, hxc⟩ := ih.mpr h1
            exact ⟨c, List.mem_cons_of_mem _ hc, hxc⟩

theorem heatDescLe_total (a b : HeatScoreRow) :
    heatDescLe a b = true ∨ heatDescLe b a = true := by
  simp only [heatDescLe, decide_eq_true_eq]
  exact le_total b.heat_score a.heat_score

theorem heatDescLe_trans (a b c : HeatScoreRow) :
    heatDescLe a b = true → heatDescLe b c = true → heatDescLe a c = true := by
  simp only [heatDescLe, decide_eq_true_eq]
  intro h1 h2
  exact le_trans h2 h1

theorem mem_topFilterAge (db : List HeatScoreRow) (now : ℚ) (ma : Option ℚ)
    (r : HeatScoreRow) (hr : r ∈ topFilterAge db now ma) :
    r ∈ db ∧ ∀ h, ma = some h → now - h ≤ r.published_at := by
  cases ma with
  | none => exact ⟨hr, by simp⟩
  | some h =>
      have hm := List.mem_filter.mp hr
      refine ⟨hm.1, ?_⟩
      intro h' hh'
      cases hh'
      simpa using hm.2

theorem mem_topFilterScore (rows : List HeatScoreRow) (ms : Option ℚ)
    (r : HeatScoreRow) (hr : r ∈ topFilterScore rows ms) :
    r ∈ rows ∧ ∀ m, ms = some m → m ≤ r.heat_score := by
  cases ms with
  | none => exact ⟨hr, by simp⟩
  | some m =>
      have hm := List.mem_filter.mp hr
      refine ⟨hm.1, ?_⟩
      intro m' hm'
      cases hm'
      simpa using hm.2

theorem mem_topFilterCategory (rows : List HeatScoreRow) (cat : Option String)
    (r : HeatScoreRow) (hr : r ∈ topFilterCategory rows cat) : r ∈ rows := by
  cases cat with
  | none => exact hr
  | some c =>
      rw [topFilterCategory] at hr
      split at hr
      · exact hr
      · exact (List.mem_filter.mp hr).1

theorem metaCategoryMatches_eq_bind (cats : List String) (r : HeatScoreRow) :
    metaCategoryMatches cats r =
      cats.any (fun c => (r.meta_data.bind HeatMetaData.category) == some c) := by
  cases hm : r.meta_data with
  | none => simp [metaCategoryMatches, hm]
  | some m => simp [metaCategoryMatches, hm]

theorem getTopNewsAsDict_sublist_sorted (db : List HeatScoreRow) (now : ℚ)
    (limit skip : ℕ) (ms ma : Option ℚ) (cat : Option String) :
    (getTopNewsAsDict db now limit skip ms ma cat).Sublist
      (insertionSort heatDescLe
        (topFilterCategory (topFilterScore (topFilterAge db now ma) ms) cat)) := by
  rw [getTopNewsAsDict]
  split
  · refine List.Sublist.trans (List.take_sublist _ _) ?_
    split
    · exact List.drop_sublist _ _
    · exact List.Sublist.refl _
  · split
    · exact List.drop_sublist _ _
    · exact List.Sublist.refl _

theorem ite_drop_eq {α : Type} (x : List α) (skip : ℕ) :
    (if skip ≠ 0 then x.drop skip else x) = x.drop skip := by
  by_cases hs : skip = 0
  · rw [if_neg (by simp [hs]), hs, List.drop_zero]
  · rw [if_pos hs]

/-- C6 (amended).  Every row returned by `get_top_news_as_dict` comes
from the store and satisfies the age bound (`published_at ≥
now − max_age_hours`) and the score bound (`heat_score ≥ min_score`)
whenever those parameters are given; the result is ordered
non-increasingly by `heat_score`; and whenever `limit ≠ 0` (the code's
`if limit:` guard treats `limit = 0` as no limit at all) the result is
exactly the claim's reference query — conjunctive filter including, for
a comma-separated category argument with at least one non-blank entry,
the logical OR over `meta_data.category` — sorted by descending heat
with `skip` dropped before `limit` is taken. -/
theorem C6_get_top_properties (db : List HeatScoreRow) (now : ℚ) (limit skip : ℕ)
    (min_score max_age_hours : Option ℚ) (category : Option String) :
    (∀ r ∈ getTopNewsAsDict db now limit skip min_score max_age_hours category,
        r ∈ db ∧ (∀ h, max_age_hours = some h → now - h ≤ r.published_at) ∧
          (∀ m, min_score = some m → m ≤ r.heat_score)) ∧
      (getTopNewsAsDict db now limit skip min_score max_age_hours category).Pairwise
        (fun a b => b.heat_score ≤ a.heat_score) ∧
      (∀ m h, limit ≠ 0 → min_score = some m → max_age_hours = some h →
        (category = none →
          getTopNewsAsDict db now limit skip min_score max_age_hours category =
            getTopNewsSpec db now limit skip m h none) ∧
        (∀ c, category = some c → parseCategories c ≠ [] →
          getTopNewsAsDict db now limit skip min_score max_age_hours category =
            getTopNewsSpec db now limit skip m h (some (parseCategories c)))) := by
  refine ⟨?_, ?_, ?_⟩
  · intro r hr
    have hs := (getTopNewsAsDict_sublist_sorted db now limit skip min_score
      max_age_hours category).subset hr
    have h3 := (mem_insertionSort _ _ _).mp hs
    have h2 := mem_topFilterCategory _ _ _ h3
    have h1 := mem_topFilterScore _ _ _ h2
    have h0 := mem_topFilterAge _ _ _ _ h1.1
    exact ⟨h0.1, h0.2, h1.2⟩
  · have hpw := pairwise_insertionSort heatDescLe heatDescLe_total heatDescLe_trans
      (topFilterCategory (topFilterScore (topFilterAge db now max_age_hours) min_score)
        category)
    have hres := hpw.sublist (getTopNewsAsDict_sublist_sorted db now limit skip
      min_score max_age_hours category)
    exact hres.imp (fun hab => by simpa [heatDescLe] using hab)
  · intro m h hlim hms hma
    subst hms; subst hma
    constructor
    · intro hcat
      subst hcat
      rw [getTopNewsAsDict, getTopNewsSpec]
      simp only [topFilterCategory, topFilterScore, topFilterAge]
      rw [List.filter_filter, if_pos hlim, ite_drop_eq]
      have hfe : List.filter
          (fun r => decide (m ≤ r.heat_score) && decide (now - h ≤ r.published_at)) db =
          List.filter (fun r => decide (now - h ≤ r.published_at) &&
            decide (m ≤ r.heat_score) &&
            match (none : Option (List String)) with
            | some cats => cats.any (fun c => (r.meta_data.bind HeatMetaData.category) == some c)
            | none => true) db := by
        apply List.filter_congr
        intro r _
        cases h1 : decide (now - h ≤ r.published_at) <;>
          cases h2 : decide (m ≤ r.heat_score) <;> simp
      rw [hfe]
    · intro c hcat hne
      subst hcat
      rw [getTopNewsAsDict, getTopNewsSpec]
      have hempty : (parseCategories c).isEmpty = false := by
        cases hpc : parseCategories c with
        | nil => exact absurd hpc hne
        | cons a l => rfl
      simp only [topFilterCategory, topFilterScore, topFilterAge, hempty,
        Bool.false_eq_true, if_false]
      rw [if_pos hlim, ite_drop_eq]
      congr 1
      congr 1
      congr 1
      rw [List.filter_filter, List.filter_filter]
      apply List.filter_congr
      intro r _
      rw [metaCategoryMatches_eq_bind]
      cases h1 : decide (now - h ≤ r.published_at) <;>
        cases h2 : decide (m ≤ r.heat_score) <;>
        cases h3 : (parseCategories c).any
          (fun c => (r.meta_data.bind HeatMetaData.category) == some c) <;>
        simp [h1, h2, h3]

/-- C6 (counterexample).  The claim quantifies over every call, but the
code's `if limit:` guard skips the `LIMIT` clause when `limit = 0`: on a
one-row store, a call with `limit = 0` returns the row, while the
claimed semantics (`skip` then `limit`) returns the empty list. -/
theorem C6_get_top_limit_zero_counterexample :
    getTopNewsAsDict [sampleRow1] 0 0 0 (some 50) (some 24) none = [sampleRow1] ∧
      getTopNewsSpec [sampleRow1] 0 0 0 50 24 none = [] ∧
      getTopNewsAsDict [sampleRow1] 0 0 0 (some 50) (some 24) none ≠
        getTopNewsSpec [sampleRow1] 0 0 0 50 24 none := by
  have hcode : getTopNewsAsDict [sampleRow1] 0 0 0 (some 50) (some 24) none =
      [sampleRow1] := by
    simp only [getTopNewsAsDict, topFilterAge, topFilterScore, topFilterCategory]
    norm_num [sampleRow1, insertionSort, insertSorted]
  have hspec : getTopNewsSpec [sampleRow1] 0 0 0 50 24 none = [] := by
    simp [getTopNewsSpec]
  refine ⟨hcode, hspec, ?_⟩
  rw [hcode, hspec]
  simp

/-- C6 witness: at `limit = 3` the code result coincides with the
claim's reference query, both without a category argument and with the
comma-separated list `"social, news"`. -/
theorem C6_get_top_properties_witness :
    getTopNewsAsDict [sampleRow1, sampleRow4] 0 3 0 (some 50) (some 24) none =
        getTopNewsSpec [sampleRow1, sampleRow4] 0 3 0 50 24 none ∧
      getTopNewsAsDict [sampleRow1, sampleRow4] 0 3 0 (some 50) (some 24)
          (some "social, news") =
        getTopNewsSpec [sampleRow1, sampleRow4] 0 3 0 50 24
          (some (parseCategories "social, news")) := by
  have h1 := C6_get_top_properties [sampleRow1, sampleRow4] 0 3 0 (some 50) (some 24) none
  have h2 := C6_get_top_properties [sampleRow1, sampleRow4] 0 3 0 (some 50) (some 24)
    (some "social, news")
  exact ⟨(h1.2.2 50 24 (by decide) rfl rfl).1 rfl,
    (h2.2.2 50 24 (by decide) rfl rfl).2 "social, news" rfl (by decide)⟩

/-- C7 (confirmed).  For every store contents, every list of requested
news ids (batched in chunks of 100 when more than 100 are requested) and
every id `x`: the bulk map of `get_multi_by_news_ids` binds `x` exactly
to what a single `get_by_news_id` lookup returns when `x` was requested,
and to nothing otherwise — same key set, same values.  Moreover the
single lookup returns a stored row for `x` whose `calculated_at` is
maximal among the rows for `x`. -/
theorem C7_get_multi_eq_single (db : List HeatScoreRow) (news_ids : List String)
    (x : String) :
    alookup (getMultiByNewsIds db news_ids) x =
      (if x ∈ news_ids then getByNewsId db x else none) ∧
      ∀ r, getByNewsId db x = some r →
        r ∈ db ∧ r.news_id = x ∧
          ∀ r' ∈ db, r'.news_id = x → r'.calculated_at ≤ r.calculated_at := by
  constructor
  · rw [getMultiByNewsIds]
    split
    · rw [alookup_fold_chunks db _ [] x,
        show alookup ([] : List (String × HeatScoreRow)) x = none from rfl, oor_none]
      exact if_congr (mem_chunkList 100 news_ids x) rfl rfl
    · rw [alookup_collectRows,
        show alookup ([] : List (String × HeatScoreRow)) x = none from rfl, oor_none]
      by_cases hx : x ∈ news_ids
      · rw [find?_queryByNewsIds_mem db news_ids x hx, if_pos hx]
      · rw [find?_queryByNewsIds_not_mem db news_ids x hx, if_neg hx]
  · intro r hr
    rw [getByNewsId] at hr
    cases hsort : insertionSort calcAtDescLe (db.filter (fun r => r.news_id == x)) with
    | nil => rw [hsort] at hr; simp at hr
    | cons a tail =>
        rw [hsort] at hr
        simp only [List.head?_cons, Option.some.injEq] at hr
        subst hr
        have hmem : a ∈ insertionSort calcAtDescLe (db.filter (fun r => r.news_id == x)) := by
          rw [hsort]; exact List.mem_cons_self _ _
        have hfil := List.mem_filter.mp ((mem_insertionSort _ _ _).mp hmem)
        have hid : a.news_id = x := by simpa using hfil.2
        refine ⟨hfil.1, hid, ?_⟩
        intro r' hr' hid'
        have hmem' : r' ∈ insertionSort calcAtDescLe (db.filter (fun r => r.news_id == x)) :=
          (mem_insertionSort _ _ _).mpr (List.mem_filter.mpr ⟨hr', by simp [hid']⟩)
        rw [hsort] at hmem'
        rcases List.mem_cons.mp hmem' with h | h
        · subst h; exact le_refl _
        · have hpw := pairwise_insertionSort calcAtDescLe calcAtDescLe_total
            calcAtDescLe_trans (db.filter (fun r => r.news_id == x))
          rw [hsort, List.pairwise_cons] at hpw
          have := hpw.1 r' h
          simpa [calcAtDescLe] using this

/-- C7 witness: the bulk lookup on a concrete store agrees with single
lookups — the requested id `"n1"` resolves to its latest row, the
unrequested id `"n2"` is absent from the bulk result. -/
theorem C7_get_multi_eq_single_witness :
    alookup (getMultiByNewsIds [sampleRow1, sampleRow2, sampleRow3] ["n1", "n3"]) "n1" =
        getByNewsId [sampleRow1, sampleRow2, sampleRow3] "n1" ∧
      alookup (getMultiByNewsIds [sampleRow1, sampleRow2, sampleRow3] ["n1", "n3"]) "n2" =
        none ∧
      getByNewsId [sampleRow1, sampleRow2, sampleRow3] "n1" = some sampleRow2 ∧
      sampleRow2.news_id = "n1" := by
  have h1 := C7_get_multi_eq_single [sampleRow1, sampleRow2, sampleRow3] ["n1", "n3"] "n1"
  have h2 := C7_get_multi_eq_single [sampleRow1, sampleRow2, sampleRow3] ["n1", "n3"] "n2"
  have hg : getByNewsId [sampleRow1, sampleRow2, sampleRow3] "n1" = some sampleRow2 := by
    decide
  refine ⟨?_, ?_, hg, ?_⟩
  · rw [h1.1, if_pos (by decide)]
  · rw [h2.1, if_neg (by decide)]
  · exact (h1.2 sampleRow2 hg).2.1

end HeatSight
